import Mathlib

/-!
Shallow embedding of the draw-orchestration core of `Src/Model.cpp` and of the
shader-permutation logic of `Src/ToneMapPostProcess.cpp`.

Drawing is modelled as the production of a trace of GPU commands (`List Cmd`).
C++ exceptions are modelled by pairing the trace with an `Option DrawError`:
the trace holds the commands issued before the throw, since D3D commands are
not rolled back when an exception propagates out of a draw loop.

Matrices are treated as opaque payloads (the code only selects and forwards
them, never inspects them), so `Mat` is an abstract identifier type.
-/

/-- Opaque matrix payload (XMMATRIX): the code only copies and indexes these. -/
abbrev Mat := Nat

/-- A shading-effect instance (IEffect). `id` is the pointer identity of the
instance; `supportsMatrices` and `supportsSkinning` record whether the
`dynamic_cast` to `IEffectMatrices*` resp. `IEffectSkinning*` succeeds. -/
structure IEffect where
  id : Nat
  supportsMatrices : Bool
  supportsSkinning : Bool
deriving DecidableEq

/-- `dynamic_cast<IEffectMatrices*>(effect.get())` is non-null.  A null effect
pointer casts to null. -/
def effectSupportsMatrices : Option IEffect → Bool
  | some e => e.supportsMatrices
  | none => false

/-- `dynamic_cast<IEffectSkinning*>(effect.get())` is non-null. -/
def effectSupportsSkinning : Option IEffect → Bool
  | some e => e.supportsSkinning
  | none => false

/-- ModelMeshPart (Model.cpp lines 27-155).  `vbDecl` is the shared vertex
input-element descriptor (`none` models a null shared_ptr); `inputLayout` and
`effect` are the part's bound input layout and effect. -/
structure ModelMeshPart where
  indexCount : Nat
  startIndex : Nat
  vertexOffset : Nat
  vertexStride : Nat
  primitiveType : Nat
  indexFormat : Nat
  isAlpha : Bool
  vbDecl : Option (List Nat)
  effect : Option IEffect
  inputLayout : Option Nat
deriving DecidableEq

/-- Render-state objects selected by `ModelMesh::PrepareForRendering`.
`noBlend` models `states.Opaque()`. -/
inductive BlendState where
  | alphaBlend
  | nonPremultiplied
  | noBlend
deriving DecidableEq

inductive DepthStencilState where
  | depthRead
  | depthDefault
deriving DecidableEq

inductive RasterizerState where
  | wireRaster
  | cullCounterClockwise
  | cullClockwise
deriving DecidableEq

/-- One GPU command issued to the device context. `drawPart p` stands for the
final `DrawIndexed(p.indexCount, p.startIndex, p.vertexOffset)` call, recorded
together with the part that issued it. -/
inductive Cmd where
  | setInputLayout (layout : Option Nat)
  | setVertexBuffer (stride : Nat)
  | setIndexBuffer (fmt : Nat)
  | applyEffect (eid : Option Nat)
  | customState
  | setTopology (t : Nat)
  | drawPart (p : ModelMeshPart)
  | setBlend (b : BlendState)
  | setDepthStencil (d : DepthStencilState)
  | setRasterizer (r : RasterizerState)
  | setSamplers (n : Nat)
  | setMatrices (world view proj : Mat)
  | setView (v : Mat)
  | setProjection (pr : Mat)
  | setWorld (w : Mat)
deriving DecidableEq

/-- The error taxonomy of the spec, mapped from the C++ exception sites:
`invalidArgument` = `std::invalid_argument`, `missingSkinningData` =
`std::runtime_error` at the bone-influence check, `invalidConfiguration` =
`std::runtime_error` at the vertex-declaration checks, `comFailure` =
`ThrowIfFailed` on a failing HRESULT, `outOfRange` = `std::out_of_range`. -/
inductive DrawError where
  | invalidArgument (msg : String)
  | missingSkinningData
  | invalidConfiguration (msg : String)
  | comFailure (hr : Int)
  | outOfRange (msg : String)
deriving DecidableEq

/-- Modelled from the spec: the distinguished invalid bone-index sentinel
(`ModelBone::c_Invalid`, declared in the Model header, which is not among the
sources).  It is `uint32_t(-1)`. -/
def ModelBone.c_Invalid : Nat := 4294967295

/-- `D3D11_IA_VERTEX_INPUT_STRUCTURE_ELEMENT_COUNT`: the pipeline's maximum
input-layout attribute-slot count. -/
def D3D11_IA_VERTEX_INPUT_STRUCTURE_ELEMENT_COUNT : Nat := 32

/-- `ModelMeshPart::Draw` (lines 45-74): binds layout and buffers, applies the
effect, runs the optional custom-state hook, sets topology and issues the
indexed draw.  `hook` records whether a custom-state callback was supplied. -/
def ModelMeshPart.Draw (p : ModelMeshPart) (eff : Option Nat) (layout : Option Nat)
    (hook : Bool) : List Cmd :=
  [Cmd.setInputLayout layout, Cmd.setVertexBuffer p.vertexStride,
   Cmd.setIndexBuffer p.indexFormat, Cmd.applyEffect eff]
  ++ (if hook then [Cmd.customState] else [])
  ++ [Cmd.setTopology p.primitiveType, Cmd.drawPart p]

/-- `ModelMeshPart::CreateInputLayout` (lines 114-134).  The external
`CreateInputLayoutFromEffect` factory is abstracted as an `Except Int Nat`
(failing HRESULT or created layout).  Result: the value left in
`*iinputLayout` (set to null before the checks), and the raised error. -/
def ModelMeshPart.CreateInputLayout (p : ModelMeshPart) (factory : Except Int Nat) :
    Option Nat × Option DrawError :=
  match p.vbDecl with
  | none =>
      (none, some (DrawError.invalidConfiguration "Model mesh part missing vertex buffer input elements data"))
  | some d =>
      if d.isEmpty then
        (none, some (DrawError.invalidConfiguration "Model mesh part missing vertex buffer input elements data"))
      else if D3D11_IA_VERTEX_INPUT_STRUCTURE_ELEMENT_COUNT < d.length then
        (none, some (DrawError.invalidConfiguration "Model mesh part input layout size is too large for DirectX 11"))
      else
        match factory with
        | Except.ok l => (some l, none)
        | Except.error hr => (none, some (DrawError.comFailure hr))

/-- `ModelMeshPart::ModifyEffect` (lines 137-155): checks the vertex
declaration, then rebinds effect and translucency flag and regenerates the
input layout.  Returns the part's state after the call and the raised error. -/
def ModelMeshPart.ModifyEffect (p : ModelMeshPart) (e : IEffect) (isalpha : Bool)
    (factory : Except Int Nat) : ModelMeshPart × Option DrawError :=
  match p.vbDecl with
  | none =>
      (p, some (DrawError.invalidConfiguration "Model mesh part missing vertex buffer input elements data"))
  | some d =>
      if d.isEmpty then
        (p, some (DrawError.invalidConfiguration "Model mesh part missing vertex buffer input elements data"))
      else if D3D11_IA_VERTEX_INPUT_STRUCTURE_ELEMENT_COUNT < d.length then
        (p, some (DrawError.invalidConfiguration "Model mesh part input layout size is too large for DirectX 11"))
      else
        let p1 : ModelMeshPart := { p with effect := some e, isAlpha := isalpha }
        match factory with
        | Except.ok l => ({ p1 with inputLayout := some l }, none)
        | Except.error hr => ({ p1 with inputLayout := none }, some (DrawError.comFailure hr))

/-- The vertex-declaration precondition violated by both `CreateInputLayout`
and `ModifyEffect`: descriptor absent, empty, or over the attribute limit. -/
def vbDeclInvalid (p : ModelMeshPart) : Bool :=
  match p.vbDecl with
  | none => true
  | some d => d.isEmpty || decide (D3D11_IA_VERTEX_INPUT_STRUCTURE_ELEMENT_COUNT < d.length)

/-- ModelMesh (lines 162-314): bone binding, winding and alpha-mode flags,
bone influences and the owned parts. -/
structure ModelMesh where
  boneIndex : Nat
  ccw : Bool
  pmalpha : Bool
  boneInfluences : List Nat
  meshParts : List ModelMeshPart
deriving DecidableEq

/-- `ModelMesh::PrepareForRendering` (lines 176-224): blend/depth-stencil
selection by (alpha, pmalpha), rasterizer by (wireframe, ccw), then two
linear-wrap samplers. -/
def ModelMesh.PrepareForRendering (m : ModelMesh) (alpha wireframe : Bool) : List Cmd :=
  [Cmd.setBlend (if alpha then (if m.pmalpha then BlendState.alphaBlend else BlendState.nonPremultiplied) else BlendState.noBlend),
   Cmd.setDepthStencil (if alpha then DepthStencilState.depthRead else DepthStencilState.depthDefault),
   Cmd.setRasterizer (if wireframe then RasterizerState.wireRaster
     else if m.ccw then RasterizerState.cullCounterClockwise else RasterizerState.cullClockwise),
   Cmd.setSamplers 2]

/-- The part loop of `ModelMesh::Draw` (lines 238-256): skip parts whose
translucency flag differs from the pass, push world/view/projection into
matrix-capable effects, draw the part. -/
def meshDrawParts (world view proj : Mat) (alpha hook : Bool) :
    List ModelMeshPart → List Cmd
  | [] => []
  | p :: rest =>
    (if p.isAlpha = alpha then
      (if effectSupportsMatrices p.effect then [Cmd.setMatrices world view proj] else [])
      ++ p.Draw (p.effect.map IEffect.id) p.inputLayout hook
     else [])
    ++ meshDrawParts world view proj alpha hook rest

/-- `ModelMesh::Draw` (lines 228-257). -/
def ModelMesh.Draw (m : ModelMesh) (world view proj : Mat) (alpha hook : Bool) : List Cmd :=
  meshDrawParts world view proj alpha hook m.meshParts

/-- The part loop of `ModelMesh::DrawSkinned` (lines 276-313): skip
non-matching parts; matrix-capable effects get view and projection; a
skinning-capable effect requires non-empty bone influences (else the loop
throws, keeping the commands already issued); a matrix-capable non-skinning
effect gets the world selected by the bone-index/fallback rule; then the part
is drawn. -/
def skinnedPartsLoop (infEmpty : Bool) (k nbones : Nat) (bt : List Mat)
    (view proj : Mat) (alpha hook : Bool) :
    List ModelMeshPart → List Cmd × Option DrawError
  | [] => ([], none)
  | p :: rest =>
    if p.isAlpha = alpha then
      let viewCmds := if effectSupportsMatrices p.effect
        then [Cmd.setView view, Cmd.setProjection proj] else []
      if effectSupportsSkinning p.effect then
        if infEmpty then
          (viewCmds, some DrawError.missingSkinningData)
        else
          let r := skinnedPartsLoop infEmpty k nbones bt view proj alpha hook rest
          (viewCmds ++ p.Draw (p.effect.map IEffect.id) p.inputLayout hook ++ r.1, r.2)
      else
        let worldCmds := if effectSupportsMatrices p.effect
          then [Cmd.setWorld (if k ≠ ModelBone.c_Invalid ∧ k < nbones
            then bt.getD k 0 else bt.getD 0 0)]
          else []
        let r := skinnedPartsLoop infEmpty k nbones bt view proj alpha hook rest
        (viewCmds ++ worldCmds ++ p.Draw (p.effect.map IEffect.id) p.inputLayout hook ++ r.1, r.2)
    else
      skinnedPartsLoop infEmpty k nbones bt view proj alpha hook rest

/-- `ModelMesh::DrawSkinned` (lines 261-314): a null (`none`) or zero-length
transform array is rejected up front with `std::invalid_argument`. -/
def ModelMesh.DrawSkinned (m : ModelMesh) (nbones : Nat) (bt : Option (List Mat))
    (view proj : Mat) (alpha hook : Bool) : List Cmd × Option DrawError :=
  if nbones = 0 ∨ bt = none then
    ([], some (DrawError.invalidArgument "Bone transforms array required"))
  else
    skinnedPartsLoop m.boneInfluences.isEmpty m.boneIndex nbones (bt.getD [])
      view proj alpha hook m.meshParts

/-- Model (aggregate root): meshes, bones (opaque records), the precomputed
absolute bone-transform array `boneMatrices`, and the lazily built effect
cache (`std::set<IEffect*>` modelled as a sorted duplicate-free list of
instance identities). -/
structure Model where
  meshes : List ModelMesh
  bones : List Nat
  boneMatrices : List Mat
  effectCache : List Nat
deriving DecidableEq

/-- One pass of the rigid-world `Model::Draw` (lines 339-347 resp. 350-358):
prepare then draw each mesh with the given pass flag. -/
def rigidPass (world view proj : Mat) (alpha wireframe hook : Bool) :
    List ModelMesh → List Cmd
  | [] => []
  | m :: rest =>
    m.PrepareForRendering alpha wireframe
    ++ m.Draw world view proj alpha hook
    ++ rigidPass world view proj alpha wireframe hook rest

/-- Rigid-world `Model::Draw` (lines 327-359): an opaque pass over all meshes
followed by an alpha pass over all meshes. -/
def Model.Draw (model : Model) (world view proj : Mat) (wireframe hook : Bool) : List Cmd :=
  rigidPass world view proj false wireframe hook model.meshes
  ++ rigidPass world view proj true wireframe hook model.meshes

/-- One pass of the skeletal `Model::Draw` (lines 387-402 resp. 405-420): each
mesh's world matrix is `boneTransforms[boneIndex]` when the bone index is not
the invalid sentinel and is below `nbones`, else `boneTransforms[0]`. -/
def skelPass (nbones : Nat) (bt : List Mat) (view proj : Mat)
    (alpha wireframe hook : Bool) : List ModelMesh → List Cmd
  | [] => []
  | m :: rest =>
    m.PrepareForRendering alpha wireframe
    ++ m.Draw (if m.boneIndex ≠ ModelBone.c_Invalid ∧ m.boneIndex < nbones
        then bt.getD m.boneIndex 0 else bt.getD 0 0) view proj alpha hook
    ++ skelPass nbones bt view proj alpha wireframe hook rest

/-- Skeletal `Model::Draw` (lines 363-421): a null or zero-length caller array
is replaced by the model's own bone count and absolute-transform array, or the
call fails with `std::invalid_argument` when the model has no bones. -/
def Model.DrawSkel (model : Model) (nbones : Nat) (bt : Option (List Mat))
    (view proj : Mat) (wireframe hook : Bool) : List Cmd × Option DrawError :=
  if nbones = 0 ∨ bt = none then
    if model.bones.isEmpty then
      ([], some (DrawError.invalidArgument "Model contains no bones"))
    else
      (skelPass model.bones.length model.boneMatrices view proj false wireframe hook model.meshes
       ++ skelPass model.bones.length model.boneMatrices view proj true wireframe hook model.meshes,
       none)
  else
    (skelPass nbones (bt.getD []) view proj false wireframe hook model.meshes
     ++ skelPass nbones (bt.getD []) view proj true wireframe hook model.meshes,
     none)

/-- One pass of `Model::DrawSkinned` (lines 444-452 resp. 455-463): prepare
then `ModelMesh::DrawSkinned` per mesh, stopping at the first error. -/
def modelSkinnedPass (nbones : Nat) (bt : List Mat) (view proj : Mat)
    (alpha wireframe hook : Bool) : List ModelMesh → List Cmd × Option DrawError
  | [] => ([], none)
  | m :: rest =>
    let pre := m.PrepareForRendering alpha wireframe
    let r := m.DrawSkinned nbones (some bt) view proj alpha hook
    match r.2 with
    | some e => (pre ++ r.1, some e)
    | none =>
      let r2 := modelSkinnedPass nbones bt view proj alpha wireframe hook rest
      (pre ++ r.1 ++ r2.1, r2.2)

/-- `Model::DrawSkinned` (lines 425-464): a null or zero-length transform
array always fails with `std::invalid_argument`, regardless of the model's
own bone data. -/
def Model.DrawSkinned (model : Model) (nbones : Nat) (bt : Option (List Mat))
    (view proj : Mat) (wireframe hook : Bool) : List Cmd × Option DrawError :=
  if nbones = 0 ∨ bt = none then
    ([], some (DrawError.invalidArgument "Bone transforms array required"))
  else
    let r1 := modelSkinnedPass nbones (bt.getD []) view proj false wireframe hook model.meshes
    match r1.2 with
    | some e => (r1.1, some e)
    | none =>
      let r2 := modelSkinnedPass nbones (bt.getD []) view proj true wireframe hook model.meshes
      (r1.1 ++ r2.1, r2.2)

/-- Ordered duplicate-free insertion: the model of `std::set<IEffect*>::insert`
with pointer keys abstracted as naturals. -/
def setInsert (s : List Nat) (x : Nat) : List Nat :=
  match s with
  | [] => [x]
  | y :: ys => if x < y then x :: y :: ys else if x = y then y :: ys else y :: setInsert ys x

/-- Inner loop of the cache build in `Model::UpdateEffects` (lines 477-481):
insert the effect of each part that has one. -/
def insertPartEffects (s : List Nat) : List ModelMeshPart → List Nat
  | [] => s
  | p :: rest =>
    insertPartEffects (match p.effect with | some e => setInsert s e.id | none => s) rest

/-- Outer loop of the cache build in `Model::UpdateEffects` (lines 472-482). -/
def buildEffectCache (s : List Nat) : List ModelMesh → List Nat
  | [] => s
  | m :: rest => buildEffectCache (insertPartEffects s m.meshParts) rest

/-- `Model::UpdateEffects` (lines 467-491): rebuild the cache only when it is
empty, then visit every cached effect.  Returns the model after the call and
the list of visited effect identities, in cache order. -/
def Model.UpdateEffects (model : Model) : Model × List Nat :=
  let cache := if model.effectCache.isEmpty
    then buildEffectCache [] model.meshes else model.effectCache
  ({ model with effectCache := cache }, cache)

/-- The effect identities referenced by the parts of a mesh list, with
multiplicity, in declaration order. -/
def referencedEffectIds : List ModelMesh → List Nat
  | [] => []
  | m :: rest =>
    m.meshParts.filterMap (fun p => p.effect.map IEffect.id) ++ referencedEffectIds rest

/-- The parts of a mesh list, in declaration order. -/
def modelPartsList : List ModelMesh → List ModelMeshPart
  | [] => []
  | m :: rest => m.meshParts ++ modelPartsList rest

/-- The draw calls of a trace: the parts whose `DrawIndexed` was issued, in
order. -/
def drawsOf (t : List Cmd) : List ModelMeshPart :=
  t.filterMap fun c => match c with
    | Cmd.drawPart p => some p
    | _ => none

/-- The world matrices pushed into effects by a trace (via `SetMatrices` or
`SetWorld`), in order. -/
def pushedWorlds (t : List Cmd) : List Mat :=
  t.filterMap fun c => match c with
    | Cmd.setMatrices w _ _ => some w
    | Cmd.setWorld w => some w
    | _ => none

/-- Classifier for `invalidConfiguration` outcomes. -/
def isInvalidConfiguration : Option DrawError → Bool
  | some (DrawError.invalidConfiguration _) => true
  | _ => false

/-- The world-matrix resolution rule as the spec states it: the invalid
sentinel selects entry 0; a valid index below the array length selects that
entry; an out-of-range index falls back to entry 0.  Stated from the spec's
words, to be compared against the source's conditionals. -/
def specWorldRule (k nbones : Nat) (bt : List Mat) : Mat :=
  if k = ModelBone.c_Invalid then bt.getD 0 0
  else if k < nbones then bt.getD k 0
  else bt.getD 0 0

/-!
ToneMapPostProcess (ToneMapPostProcess.cpp).  The code has two compile-time
configurations; `xbox` selects the `_XBOX_ONE && _TITLE` build.
-/

/-- Modelled from the spec: `Operator_Max` of the `Operator` enumeration
{None, Saturate, Reinhard, ACESFilmic} declared in PostProcess.h, which is not
among the sources.  Its value is pinned by the shader-index table in
ToneMapPostProcess.cpp: each EOTF group holds exactly four operator rows, and
`_countof(pixelShaderIndices) == ShaderPermutationCount` with
`ShaderPermutationCount = TransferFunction_Max * Operator_Max` permutations
per MRT mode. -/
def Operator_Max : Int := 4

/-- Modelled from the spec: `TransferFunction_Max` of the `TransferFunction`
enumeration {Linear, SRGB, ST2084} declared in PostProcess.h, which is not
among the sources; pinned by the three EOTF groups of the shader-index
table. -/
def TransferFunction_Max : Int := 3

/-- `PixelShaderCount` (lines 33, 36). -/
def PixelShaderCount (xbox : Bool) : Nat := if xbox then 13 else 8

/-- `ShaderPermutationCount` (lines 34, 37). -/
def ShaderPermutationCount (xbox : Bool) : Nat := if xbox then 24 else 12

/-- The `pixelShaderIndices` table (lines 111-150). -/
def pixelShaderIndices (xbox : Bool) : List Nat :=
  [0, 1, 2, 3,
   4, 5, 6, 3,
   7, 7, 7, 7]
  ++ (if xbox then
       [8, 8, 9, 10,
        11, 11, 12, 10,
        8, 8, 8, 8]
      else [])

/-- `ToneMapPostProcess::Impl::GetCurrentShaderPermutation` (lines 352-360). -/
def GetCurrentShaderPermutation (xbox mrt : Bool) (func op : Int) : Int :=
  (if xbox && mrt then 12 else 0) + func * Operator_Max + op

/-- `ToneMapPostProcess::SetOperator` (lines 399-405): rejects operators
outside `[0, Operator_Max)`; returns the raised error, if any. -/
def SetOperator (op : Int) : Option DrawError :=
  if op < 0 ∨ Operator_Max ≤ op then some (DrawError.outOfRange "Tonemap operator not defined")
  else none

/-- `ToneMapPostProcess::SetTransferFunction` (lines 408-415): rejects
transfer functions outside `[0, TransferFunction_Max)`. -/
def SetTransferFunction (func : Int) : Option DrawError :=
  if func < 0 ∨ TransferFunction_Max ≤ func then
    some (DrawError.outOfRange "Electro-optical transfer function not defined")
  else none

/-!
Helper lemmas about the traces.
-/

theorem drawsOf_append (a b : List Cmd) : drawsOf (a ++ b) = drawsOf a ++ drawsOf b := by
  simp [drawsOf]

theorem pushedWorlds_append (a b : List Cmd) :
    pushedWorlds (a ++ b) = pushedWorlds a ++ pushedWorlds b := by
  simp [pushedWorlds]

theorem drawsOf_partDraw (p : ModelMeshPart) (eff layout : Option Nat) (hook : Bool) :
    drawsOf (p.Draw eff layout hook) = [p] := by
  cases hook <;> rfl

theorem pushedWorlds_partDraw (p : ModelMeshPart) (eff layout : Option Nat) (hook : Bool) :
    pushedWorlds (p.Draw eff layout hook) = [] := by
  cases hook <;> rfl

theorem drawsOf_prepare (m : ModelMesh) (alpha wireframe : Bool) :
    drawsOf (m.PrepareForRendering alpha wireframe) = [] := rfl

theorem pushedWorlds_prepare (m : ModelMesh) (alpha wireframe : Bool) :
    pushedWorlds (m.PrepareForRendering alpha wireframe) = [] := rfl

theorem drawsOf_matCmds (b : Bool) (w v pr : Mat) :
    drawsOf (if b then [Cmd.setMatrices w v pr] else []) = [] := by
  cases b <;> rfl

theorem drawsOf_meshDrawParts (world view proj : Mat) (alpha hook : Bool)
    (parts : List ModelMeshPart) :
    drawsOf (meshDrawParts world view proj alpha hook parts)
      = parts.filter (fun p => p.isAlpha == alpha) := by
  induction parts with
  | nil => rfl
  | cons p rest ih =>
    by_cases h : p.isAlpha = alpha
    · simp only [meshDrawParts, if_pos h, drawsOf_append, drawsOf_matCmds,
        drawsOf_partDraw, ih, List.filter_cons]
      simp [h]
    · simp only [meshDrawParts, if_neg h, drawsOf_append, ih, List.filter_cons]
      simp [h, drawsOf]

theorem pushedWorlds_viewCmds (b : Bool) (v pr : Mat) :
    pushedWorlds (if b then [Cmd.setView v, Cmd.setProjection pr] else []) = [] := by
  cases b <;> rfl

theorem pushedWorlds_worldCmds (b : Bool) (w : Mat) :
    pushedWorlds (if b then [Cmd.setWorld w] else []) = (if b then [w] else []) := by
  cases b <;> rfl

theorem pushedWorlds_meshDrawParts (world view proj : Mat) (alpha hook : Bool)
    (parts : List ModelMeshPart) :
    ∀ w ∈ pushedWorlds (meshDrawParts world view proj alpha hook parts), w = world := by
  induction parts with
  | nil => intro w hw; simp [meshDrawParts, pushedWorlds] at hw
  | cons p rest ih =>
    intro w hw
    simp only [meshDrawParts, pushedWorlds_append, List.mem_append] at hw
    rcases hw with hw | hw
    · by_cases h : p.isAlpha = alpha
      · rw [if_pos h, pushedWorlds_append] at hw
        rcases List.mem_append.mp hw with hw | hw
        · cases hm : effectSupportsMatrices p.effect <;> rw [hm] at hw <;>
            simp [pushedWorlds] at hw
          exact hw
        · rw [pushedWorlds_partDraw] at hw
          simp at hw
      · rw [if_neg h] at hw
        simp [pushedWorlds] at hw
    · exact ih w hw

theorem drawsOf_rigidPass (world view proj : Mat) (alpha wf hook : Bool)
    (meshes : List ModelMesh) :
    drawsOf (rigidPass world view proj alpha wf hook meshes)
      = (modelPartsList meshes).filter (fun p => p.isAlpha == alpha) := by
  induction meshes with
  | nil => rfl
  | cons m rest ih =>
    simp only [rigidPass, drawsOf_append, drawsOf_prepare, ModelMesh.Draw,
      drawsOf_meshDrawParts, ih, modelPartsList, List.filter_append, List.nil_append]

/-- The source's world-selection conditional agrees with the spec's
three-case resolution rule. -/
theorem codeWorld_eq_spec (k n : Nat) (bt : List Mat) :
    (if k ≠ ModelBone.c_Invalid ∧ k < n then bt.getD k 0 else bt.getD 0 0)
      = specWorldRule k n bt := by
  unfold specWorldRule
  by_cases h1 : k = ModelBone.c_Invalid
  · simp [h1]
  · by_cases h2 : k < n
    · simp [h1, h2]
    · simp [h1, h2]

theorem pushedWorlds_skelPass_all (nbones : Nat) (bt : List Mat) (view proj : Mat)
    (alpha wf hook : Bool) (meshes : List ModelMesh) :
    ∀ w ∈ pushedWorlds (skelPass nbones bt view proj alpha wf hook meshes),
      ∃ mm, mm ∈ meshes ∧ w = specWorldRule mm.boneIndex nbones bt := by
  induction meshes with
  | nil => intro w hw; simp [skelPass, pushedWorlds] at hw
  | cons m rest ih =>
    intro w hw
    simp only [skelPass, ModelMesh.Draw, pushedWorlds_append, pushedWorlds_prepare,
      List.mem_append] at hw
    rcases hw with (hw | hw) | hw
    · simp at hw
    · have hwv := pushedWorlds_meshDrawParts _ view proj alpha hook m.meshParts w hw
      exact ⟨m, List.mem_cons_self _ _, by rw [hwv, codeWorld_eq_spec]⟩
    · obtain ⟨mm, hmm, hb⟩ := ih w hw
      exact ⟨mm, List.mem_cons_of_mem _ hmm, hb⟩

theorem pushedWorlds_skinnedLoop (infEmpty : Bool) (k nbones : Nat) (bt : List Mat)
    (view proj : Mat) (alpha hook : Bool) (parts : List ModelMeshPart) :
    ∀ w ∈ pushedWorlds (skinnedPartsLoop infEmpty k nbones bt view proj alpha hook parts).1,
      w = specWorldRule k nbones bt := by
  induction parts with
  | nil => intro w hw; simp [skinnedPartsLoop, pushedWorlds] at hw
  | cons p rest ih =>
    intro w hw
    by_cases h : p.isAlpha = alpha
    · simp only [skinnedPartsLoop, if_pos h] at hw
      by_cases hs : effectSupportsSkinning p.effect = true
      · rw [if_pos hs] at hw
        by_cases hinf : infEmpty = true
        · rw [if_pos hinf] at hw
          rw [show ((if effectSupportsMatrices p.effect = true
              then [Cmd.setView view, Cmd.setProjection proj] else []),
              some DrawError.missingSkinningData).1
            = (if effectSupportsMatrices p.effect = true
              then [Cmd.setView view, Cmd.setProjection proj] else []) from rfl,
            pushedWorlds_viewCmds] at hw
          simp at hw
        · rw [if_neg hinf] at hw
          simp only [pushedWorlds_append, List.mem_append, pushedWorlds_viewCmds,
            pushedWorlds_partDraw] at hw
          rcases hw with (hw | hw) | hw
          · simp at hw
          · simp at hw
          · exact ih w hw
      · rw [if_neg hs] at hw
        simp only [pushedWorlds_append, List.mem_append, pushedWorlds_viewCmds,
          pushedWorlds_worldCmds, pushedWorlds_partDraw] at hw
        rcases hw with ((hw | hw) | hw) | hw
        · simp at hw
        · by_cases hm : effectSupportsMatrices p.effect = true
          · rw [if_pos hm] at hw
            simp only [List.mem_singleton] at hw
            rw [hw, codeWorld_eq_spec]
          · rw [if_neg hm] at hw
            simp at hw
        · simp at hw
        · exact ih w hw
    · simp only [skinnedPartsLoop, if_neg h] at hw
      exact ih w hw

/-- Claim C1: the rigid-world `Model::Draw` emits two full passes over the
whole mesh sequence — the trace is an opaque pass over all meshes followed by
an alpha pass over all meshes, every draw call of the opaque pass is a draw of
an opaque part and every draw call of the alpha pass is a draw of an alpha
part, so every opaque-pass draw call precedes every alpha-pass draw call and
alpha processing never interleaves with opaque processing of a later mesh. -/
theorem model_draw_two_pass_order (model : Model) (world view proj : Mat)
    (wf hook : Bool) :
    Model.Draw model world view proj wf hook
      = rigidPass world view proj false wf hook model.meshes
        ++ rigidPass world view proj true wf hook model.meshes
    ∧ (∀ p ∈ drawsOf (rigidPass world view proj false wf hook model.meshes),
        p.isAlpha = false)
    ∧ (∀ p ∈ drawsOf (rigidPass world view proj true wf hook model.meshes),
        p.isAlpha = true) := by
  refine ⟨rfl, ?_, ?_⟩ <;>
    · intro p hp
      rw [drawsOf_rigidPass] at hp
      simpa using (List.mem_filter.mp hp).2

def c1Part : ModelMeshPart :=
  { indexCount := 3, startIndex := 0, vertexOffset := 0, vertexStride := 8,
    primitiveType := 4, indexFormat := 57, isAlpha := false, vbDecl := some [1],
    effect := some { id := 1, supportsMatrices := true, supportsSkinning := false },
    inputLayout := some 2 }

def c1Mesh : ModelMesh :=
  { boneIndex := 0, ccw := true, pmalpha := true, boneInfluences := [],
    meshParts := [c1Part] }

def c1Model : Model :=
  { meshes := [c1Mesh], bones := [], boneMatrices := [], effectCache := [] }

theorem model_draw_two_pass_order_witness : c1Part.isAlpha = false :=
  (model_draw_two_pass_order c1Model 1 2 3 false false).2.1 c1Part (by decide)

/-- Claim C3: in a full rigid-world model draw, the opaque pass draws exactly
the opaque parts and the alpha pass exactly the alpha parts, each in declared
order with non-matching parts skipped; in particular the model issues exactly
one draw per part per matching pass (M opaque draws then N alpha draws). -/
theorem translucency_partition (model : Model) (world view proj : Mat)
    (wf hook : Bool) :
    drawsOf (rigidPass world view proj false wf hook model.meshes)
      = (modelPartsList model.meshes).filter (fun p => p.isAlpha == false)
    ∧ drawsOf (rigidPass world view proj true wf hook model.meshes)
      = (modelPartsList model.meshes).filter (fun p => p.isAlpha == true)
    ∧ drawsOf (Model.Draw model world view proj wf hook)
      = (modelPartsList model.meshes).filter (fun p => p.isAlpha == false)
        ++ (modelPartsList model.meshes).filter (fun p => p.isAlpha == true) := by
  refine ⟨drawsOf_rigidPass _ _ _ _ _ _ _, drawsOf_rigidPass _ _ _ _ _ _ _, ?_⟩
  rw [Model.Draw, drawsOf_append, drawsOf_rigidPass, drawsOf_rigidPass]

/-- Claim C2: under the bone-index world-matrix resolution rule — in the
skeletal `Model::Draw` over a one-mesh model, and in `ModelMesh::DrawSkinned`
for matrix-capable non-skinning effects — every world matrix pushed equals the
spec's rule: transform 0 for the invalid sentinel, transform k for a valid
k below the array length, transform 0 as fallback for k at or above it. -/
theorem world_matrix_resolution (m : ModelMesh) (bs : List Nat) (bm : List Mat)
    (ec : List Nat) (nbones : Nat) (bt : List Mat) (view proj : Mat)
    (wf hook alpha : Bool) (hn : 0 < nbones) (hlen : nbones = bt.length) :
    (∀ w ∈ pushedWorlds
        (Model.DrawSkel ⟨[m], bs, bm, ec⟩ nbones (some bt) view proj wf hook).1,
      w = specWorldRule m.boneIndex nbones bt)
    ∧ (∀ w ∈ pushedWorlds (m.DrawSkinned nbones (some bt) view proj alpha hook).1,
      w = specWorldRule m.boneIndex nbones bt) := by
  have hcond : ¬(nbones = 0 ∨ (some bt : Option (List Mat)) = none) := by
    rintro (hc | hc)
    · omega
    · exact Option.noConfusion hc
  constructor
  · intro w hw
    rw [Model.DrawSkel, if_neg hcond] at hw
    have hw2 : w ∈ pushedWorlds
        (skelPass nbones bt view proj false wf hook [m]
          ++ skelPass nbones bt view proj true wf hook [m]) := hw
    rw [pushedWorlds_append] at hw2
    rcases List.mem_append.mp hw2 with hw3 | hw3 <;>
      · obtain ⟨mm, hmm, hb⟩ := pushedWorlds_skelPass_all _ _ _ _ _ _ _ _ w hw3
        rwa [List.mem_singleton.mp hmm] at hb
  · intro w hw
    rw [ModelMesh.DrawSkinned, if_neg hcond] at hw
    exact pushedWorlds_skinnedLoop _ _ _ _ _ _ _ _ _ w hw

def c2Part : ModelMeshPart :=
  { indexCount := 6, startIndex := 0, vertexOffset := 0, vertexStride := 12,
    primitiveType := 4, indexFormat := 57, isAlpha := false, vbDecl := some [1, 2],
    effect := some { id := 7, supportsMatrices := true, supportsSkinning := false },
    inputLayout := some 1 }

def c2Mesh : ModelMesh :=
  { boneIndex := 1, ccw := true, pmalpha := true, boneInfluences := [],
    meshParts := [c2Part] }

theorem world_matrix_resolution_witness : (20 : Mat) = specWorldRule 1 2 [10, 20] :=
  (world_matrix_resolution c2Mesh [] [] [] 2 [10, 20] 3 4 false false false
    (by decide) (by decide)).2 20 (by decide)

theorem drawsOf_viewCmds (b : Bool) (v pr : Mat) :
    drawsOf (if b then [Cmd.setView v, Cmd.setProjection pr] else []) = [] := by
  cases b <;> rfl

theorem drawsOf_worldCmds (b : Bool) (w : Mat) :
    drawsOf (if b then [Cmd.setWorld w] else []) = [] := by
  cases b <;> rfl

/-- With empty bone influences, the `DrawSkinned` part loop throws
`MissingSkinningData` at the first pass-matching skinning-capable part, after
having drawn every pass-matching part before it. -/
theorem skinnedLoop_infEmpty (k nbones : Nat) (bt : List Mat) (view proj : Mat)
    (alpha hook : Bool) (parts : List ModelMeshPart)
    (hex : ∃ p ∈ parts, p.isAlpha = alpha ∧ effectSupportsSkinning p.effect = true) :
    (skinnedPartsLoop true k nbones bt view proj alpha hook parts).2
        = some DrawError.missingSkinningData
    ∧ drawsOf (skinnedPartsLoop true k nbones bt view proj alpha hook parts).1
        = (parts.filter (fun p => p.isAlpha == alpha)).takeWhile
            (fun p => !effectSupportsSkinning p.effect) := by
  induction parts with
  | nil => simp at hex
  | cons p rest ih =>
    by_cases h : p.isAlpha = alpha
    · by_cases hs : effectSupportsSkinning p.effect = true
      · have hba : (p.isAlpha == alpha) = true := by simp [h]
        have hsk : (!effectSupportsSkinning p.effect) = false := by simp [hs]
        constructor
        · simp [skinnedPartsLoop, if_pos h, hs]
        · simp only [skinnedPartsLoop, if_pos h, hs, if_pos rfl, ite_true,
            List.filter_cons, hba, List.takeWhile_cons, hsk]
          simp [drawsOf_viewCmds]
      · have hs2 : effectSupportsSkinning p.effect = false := by
          revert hs; cases effectSupportsSkinning p.effect <;> simp
        have hex2 : ∃ q ∈ rest, q.isAlpha = alpha ∧ effectSupportsSkinning q.effect = true := by
          obtain ⟨q, hq, hqa, hqs⟩ := hex
          rcases List.mem_cons.mp hq with rfl | hq2
          · exact absurd hqs hs
          · exact ⟨q, hq2, hqa, hqs⟩
        obtain ⟨ih1, ih2⟩ := ih hex2
        have hba : (p.isAlpha == alpha) = true := by simp [h]
        have hsk : (!effectSupportsSkinning p.effect) = true := by simp [hs2]
        constructor
        · simp only [skinnedPartsLoop, if_pos h, hs2]
          simpa using ih1
        · simp only [skinnedPartsLoop, if_pos h, hs2, List.filter_cons, hba,
            List.takeWhile_cons, hsk, ite_true, ite_false, Bool.false_eq_true, if_false]
          simp [drawsOf_append, drawsOf_viewCmds, drawsOf_worldCmds, drawsOf_partDraw, ih2]
    · have hex2 : ∃ q ∈ rest, q.isAlpha = alpha ∧ effectSupportsSkinning q.effect = true := by
        obtain ⟨q, hq, hqa, hqs⟩ := hex
        rcases List.mem_cons.mp hq with rfl | hq2
        · exact absurd hqa h
        · exact ⟨q, hq2, hqa, hqs⟩
      obtain ⟨ih1, ih2⟩ := ih hex2
      have hba : (p.isAlpha == alpha) = false := by simp [h]
      constructor
      · simp only [skinnedPartsLoop, if_neg h]
        exact ih1
      · simp only [skinnedPartsLoop, if_neg h, List.filter_cons, hba]
        simpa using ih2

def c4PartPlain : ModelMeshPart :=
  { indexCount := 3, startIndex := 0, vertexOffset := 0, vertexStride := 8,
    primitiveType := 4, indexFormat := 57, isAlpha := false, vbDecl := some [1],
    effect := some { id := 1, supportsMatrices := true, supportsSkinning := false },
    inputLayout := some 1 }

def c4PartSkinned : ModelMeshPart :=
  { indexCount := 9, startIndex := 3, vertexOffset := 0, vertexStride := 8,
    primitiveType := 4, indexFormat := 57, isAlpha := false, vbDecl := some [1],
    effect := some { id := 2, supportsMatrices := false, supportsSkinning := true },
    inputLayout := some 2 }

def c4Mesh : ModelMesh :=
  { boneIndex := 0, ccw := true, pmalpha := true, boneInfluences := [],
    meshParts := [c4PartPlain, c4PartSkinned] }

/-- Claim C4 counterexample: a mesh with an ordinary part before a
skinning-capable part, drawn by `DrawSkinned` with empty bone influences,
does fail with `MissingSkinningData`, but a draw call of that mesh (the first
part's) is issued before the error — refuting the claim that zero part draw
calls of the mesh precede the error. -/
theorem drawSkinned_missing_skinning_cex :
    (c4Mesh.DrawSkinned 1 (some [5]) 0 0 false false).2
        = some DrawError.missingSkinningData
    ∧ drawsOf (c4Mesh.DrawSkinned 1 (some [5]) 0 0 false false).1 = [c4PartPlain]
    ∧ drawsOf (c4Mesh.DrawSkinned 1 (some [5]) 0 0 false false).1 ≠ [] := by
  exact ⟨rfl, rfl, by decide⟩

/-- Claim C4 (amended): with an empty bone-influence mapping, if any
pass-matching part of the mesh is bound to a skinning-capable effect then
`DrawSkinned` fails with `MissingSkinningData` at the first such part — every
pass-matching part before it is drawn first, and no draw call is issued from
the failing part on.  (In particular, when the first pass-matching part is
the skinning-capable one, zero draw calls precede the error.) -/
theorem drawSkinned_missing_skinning_amended (m : ModelMesh) (nbones : Nat)
    (bt : List Mat) (view proj : Mat) (alpha hook : Bool)
    (hinf : m.boneInfluences = []) (hn : 0 < nbones)
    (hex : ∃ p ∈ m.meshParts, p.isAlpha = alpha ∧ effectSupportsSkinning p.effect = true) :
    (m.DrawSkinned nbones (some bt) view proj alpha hook).2
        = some DrawError.missingSkinningData
    ∧ drawsOf (m.DrawSkinned nbones (some bt) view proj alpha hook).1
        = (m.meshParts.filter (fun p => p.isAlpha == alpha)).takeWhile
            (fun p => !effectSupportsSkinning p.effect) := by
  have hcond : ¬(nbones = 0 ∨ (some bt : Option (List Mat)) = none) := by
    rintro (hc | hc)
    · omega
    · exact Option.noConfusion hc
  have hIE : m.boneInfluences.isEmpty = true := by simp [hinf]
  rw [ModelMesh.DrawSkinned, if_neg hcond, hIE]
  exact skinnedLoop_infEmpty _ _ _ _ _ _ _ _ hex

theorem drawSkinned_missing_skinning_amended_witness :
    (c4Mesh.DrawSkinned 1 (some [5]) 0 0 false false).2
        = some DrawError.missingSkinningData
    ∧ drawsOf (c4Mesh.DrawSkinned 1 (some [5]) 0 0 false false).1
        = (c4Mesh.meshParts.filter (fun p => p.isAlpha == false)).takeWhile
            (fun p => !effectSupportsSkinning p.effect) :=
  drawSkinned_missing_skinning_amended c4Mesh 1 [5] 0 0 false false rfl
    (by decide) (by decide)

/-- Claim C5: `Model::DrawSkinned` and `ModelMesh::DrawSkinned` with a null
transform-array pointer or a zero transform count always fail with
`InvalidArgument` and issue zero draw calls, whatever the model's own bone
data. -/
theorem drawSkinned_null_args (model : Model) (m : ModelMesh) (nbones : Nat)
    (bt : Option (List Mat)) (view proj : Mat) (wf hook alpha : Bool)
    (h : nbones = 0 ∨ bt = none) :
    Model.DrawSkinned model nbones bt view proj wf hook
      = ([], some (DrawError.invalidArgument "Bone transforms array required"))
    ∧ ModelMesh.DrawSkinned m nbones bt view proj alpha hook
      = ([], some (DrawError.invalidArgument "Bone transforms array required"))
    ∧ drawsOf (Model.DrawSkinned model nbones bt view proj wf hook).1 = []
    ∧ drawsOf (ModelMesh.DrawSkinned m nbones bt view proj alpha hook).1 = [] := by
  refine ⟨?_, ?_, ?_, ?_⟩
  · rw [Model.DrawSkinned, if_pos h]
  · rw [ModelMesh.DrawSkinned, if_pos h]
  · rw [Model.DrawSkinned, if_pos h]
    rfl
  · rw [ModelMesh.DrawSkinned, if_pos h]
    rfl

def c5Model : Model :=
  { meshes := [], bones := [3, 4], boneMatrices := [7, 8], effectCache := [] }

theorem drawSkinned_null_args_witness :
    Model.DrawSkinned c5Model 0 (some [9]) 1 2 false false
      = ([], some (DrawError.invalidArgument "Bone transforms array required")) :=
  (drawSkinned_null_args c5Model c4Mesh 0 (some [9]) 1 2 false false false
    (Or.inl rfl)).1

/-- Claim C6: the skeletal `Model::Draw` with a null or zero-length transform
array substitutes the model's own bone count and absolute-transform array and
proceeds with the normal two-pass draw; when the model's bone sequence is
empty it instead fails with `InvalidArgument` before any draw call. -/
theorem skeletal_draw_bone_substitution (model : Model) (nbones : Nat)
    (bt : Option (List Mat)) (view proj : Mat) (wf hook : Bool)
    (h : nbones = 0 ∨ bt = none) :
    (model.bones = [] →
      Model.DrawSkel model nbones bt view proj wf hook
        = ([], some (DrawError.invalidArgument "Model contains no bones")))
    ∧ (model.bones ≠ [] →
      Model.DrawSkel model nbones bt view proj wf hook
        = Model.DrawSkel model model.bones.length (some model.boneMatrices)
            view proj wf hook
      ∧ (Model.DrawSkel model nbones bt view proj wf hook).2 = none) := by
  constructor
  · intro hb
    rw [Model.DrawSkel, if_pos h, if_pos (by simp [hb])]
  · intro hb
    have hlen : model.bones.length ≠ 0 := by simpa using hb
    have hcond2 : ¬(model.bones.length = 0
        ∨ (some model.boneMatrices : Option (List Mat)) = none) := by
      rintro (hc | hc)
      · exact hlen hc
      · exact Option.noConfusion hc
    have hne : ¬(model.bones.isEmpty = true) := by simp [hb]
    constructor
    · rw [Model.DrawSkel, if_pos h, if_neg hne, Model.DrawSkel, if_neg hcond2]
      rfl
    · rw [Model.DrawSkel, if_pos h, if_neg hne]

def c6Model : Model :=
  { meshes := [], bones := [0], boneMatrices := [3], effectCache := [] }

theorem skeletal_draw_bone_substitution_witness :
    Model.DrawSkel c6Model 0 none 1 2 false false
      = Model.DrawSkel c6Model 1 (some [3]) 1 2 false false :=
  ((skeletal_draw_bone_substitution c6Model 0 none 1 2 false false
    (Or.inl rfl)).2 (by decide)).1

theorem mem_setInsert (s : List Nat) (x y : Nat) :
    y ∈ setInsert s x ↔ y = x ∨ y ∈ s := by
  induction s with
  | nil => simp [setInsert]
  | cons z zs ih =>
    unfold setInsert
    by_cases h1 : x < z
    · simp [h1]
    · by_cases h2 : x = z
      · subst h2
        simp [h1]
      · simp [h1, h2, List.mem_cons, ih]
        tauto

theorem pairwise_setInsert (s : List Nat) (x : Nat)
    (hs : s.Pairwise (· < ·)) : (setInsert s x).Pairwise (· < ·) := by
  induction s with
  | nil => simp [setInsert]
  | cons z zs ih =>
    rw [List.pairwise_cons] at hs
    obtain ⟨hz, hzs⟩ := hs
    unfold setInsert
    by_cases h1 : x < z
    · rw [if_pos h1, List.pairwise_cons]
      refine ⟨?_, List.pairwise_cons.mpr ⟨hz, hzs⟩⟩
      intro b hb
      rcases List.mem_cons.mp hb with rfl | hb2
      · exact h1
      · exact h1.trans (hz b hb2)
    · rw [if_neg h1]
      by_cases h2 : x = z
      · rw [if_pos h2, List.pairwise_cons]
        exact ⟨hz, hzs⟩
      · rw [if_neg h2, List.pairwise_cons]
        refine ⟨?_, ih hzs⟩
        intro b hb
        rcases (mem_setInsert zs x b).mp hb with rfl | hb2
        · omega
        · exact hz b hb2

theorem mem_insertPartEffects (parts : List ModelMeshPart) :
    ∀ s y, y ∈ insertPartEffects s parts
      ↔ y ∈ s ∨ y ∈ parts.filterMap (fun p => p.effect.map IEffect.id) := by
  induction parts with
  | nil => intro s y; simp [insertPartEffects]
  | cons p rest ih =>
    intro s y
    cases hp : p.effect with
    | none => simp [insertPartEffects, hp, ih, List.filterMap_cons]
    | some e =>
      simp [insertPartEffects, hp, ih, mem_setInsert, List.filterMap_cons]
      tauto

theorem pairwise_insertPartEffects (parts : List ModelMeshPart) :
    ∀ s, s.Pairwise (· < ·) → (insertPartEffects s parts).Pairwise (· < ·) := by
  induction parts with
  | nil => intro s hs; simpa [insertPartEffects] using hs
  | cons p rest ih =>
    intro s hs
    cases hp : p.effect with
    | none =>
      simp only [insertPartEffects, hp]
      exact ih s hs
    | some e =>
      simp only [insertPartEffects, hp]
      exact ih _ (pairwise_setInsert s e.id hs)

theorem mem_buildEffectCache (meshes : List ModelMesh) :
    ∀ s y, y ∈ buildEffectCache s meshes ↔ y ∈ s ∨ y ∈ referencedEffectIds meshes := by
  induction meshes with
  | nil => intro s y; simp [buildEffectCache, referencedEffectIds]
  | cons m rest ih =>
    intro s y
    simp only [buildEffectCache, referencedEffectIds, List.mem_append]
    rw [ih, mem_insertPartEffects]
    tauto

theorem pairwise_buildEffectCache (meshes : List ModelMesh) :
    ∀ s, s.Pairwise (· < ·) → (buildEffectCache s meshes).Pairwise (· < ·) := by
  induction meshes with
  | nil => intro s hs; simpa [buildEffectCache] using hs
  | cons m rest ih =>
    intro s hs
    simp only [buildEffectCache]
    exact ih _ (pairwise_insertPartEffects m.meshParts s hs)

theorem updateEffects_nonempty (mo : Model) (h : mo.effectCache ≠ []) :
    (Model.UpdateEffects mo).2 = mo.effectCache := by
  have hb : mo.effectCache.isEmpty = false := by
    cases hmo : mo.effectCache
    · exact absurd hmo h
    · rfl
  simp [Model.UpdateEffects, hb]

def c7PartUnbound : ModelMeshPart :=
  { indexCount := 3, startIndex := 0, vertexOffset := 0, vertexStride := 8,
    primitiveType := 4, indexFormat := 57, isAlpha := false, vbDecl := some [1],
    effect := none, inputLayout := none }

def c7Mesh : ModelMesh :=
  { boneIndex := 0, ccw := true, pmalpha := true, boneInfluences := [],
    meshParts := [c7PartUnbound] }

def c7Model : Model :=
  { meshes := [c7Mesh], bones := [], boneMatrices := [], effectCache := [] }

def c7PartBound : ModelMeshPart :=
  { c7PartUnbound with
    effect := some { id := 5, supportsMatrices := true, supportsSkinning := false } }

/-- The model state after a first `UpdateEffects` call on `c7Model` followed
by a rebind of the part's effect (the binding change between the calls). -/
def c7ModelAfter : Model :=
  { (Model.UpdateEffects c7Model).1 with
    meshes := [{ c7Mesh with meshParts := [c7PartBound] }] }

/-- Claim C7 counterexample: on a model whose first `UpdateEffects` call
finds no bound effect, the cache stays empty, so a second call after an
effect binding was added rebuilds it and visits a different set — refuting
both the build-at-most-once claim and the same-set-across-calls claim. -/
theorem updateEffects_stale_cache_cex :
    (Model.UpdateEffects c7Model).2 = []
    ∧ (Model.UpdateEffects c7ModelAfter).2 = [5]
    ∧ (Model.UpdateEffects c7Model).2 ≠ (Model.UpdateEffects c7ModelAfter).2 := by
  exact ⟨rfl, rfl, by decide⟩

/-- Claim C7 (amended): a first `UpdateEffects` call on a model with an empty
cache visits exactly the distinct effect instances referenced by the parts —
each exactly once — and, provided that visit set is non-empty, any second
call visits exactly the same set even if every mesh and part binding changed
in between (the cache is built once and never rebuilt). -/
theorem updateEffects_amended (model : Model) (hc : model.effectCache = []) :
    (Model.UpdateEffects model).2.Nodup
    ∧ (∀ i ∈ (Model.UpdateEffects model).2, i ∈ referencedEffectIds model.meshes)
    ∧ (∀ i ∈ referencedEffectIds model.meshes, i ∈ (Model.UpdateEffects model).2)
    ∧ ((Model.UpdateEffects model).2 ≠ [] →
        ∀ meshes₂ : List ModelMesh,
          (Model.UpdateEffects
              { (Model.UpdateEffects model).1 with meshes := meshes₂ }).2
            = (Model.UpdateEffects model).2) := by
  have hv : (Model.UpdateEffects model).2 = buildEffectCache [] model.meshes := by
    simp [Model.UpdateEffects, hc]
  refine ⟨?_, ?_, ?_, ?_⟩
  · rw [hv]
    exact (pairwise_buildEffectCache model.meshes [] (by simp)).imp
      (fun hlt => Nat.ne_of_lt hlt)
  · intro i hi
    rw [hv] at hi
    rcases (mem_buildEffectCache model.meshes [] i).mp hi with hh | hh
    · simp at hh
    · exact hh
  · intro i hi
    rw [hv]
    exact (mem_buildEffectCache model.meshes [] i).mpr (Or.inr hi)
  · intro hne meshes₂
    have h1 : ({ (Model.UpdateEffects model).1 with meshes := meshes₂ } : Model).effectCache
        = (Model.UpdateEffects model).2 := rfl
    rw [updateEffects_nonempty _ (by rw [h1]; exact hne), h1]

def c7wPart : ModelMeshPart :=
  { c7PartUnbound with
    effect := some { id := 9, supportsMatrices := false, supportsSkinning := false } }

def c7wModel : Model :=
  { meshes := [{ c7Mesh with meshParts := [c7wPart] }], bones := [],
    boneMatrices := [], effectCache := [] }

theorem updateEffects_amended_witness :
    (Model.UpdateEffects
        { (Model.UpdateEffects c7wModel).1 with meshes := [] }).2
      = (Model.UpdateEffects c7wModel).2 :=
  (updateEffects_amended c7wModel rfl).2.2.2 (by decide) []

/-- Claim C8: `CreateInputLayout` fails with `InvalidConfiguration` exactly
when the part's vertex-layout descriptor is absent, empty, or over the
attribute-slot limit; in that case the output pointer is left null and the
layout factory is never consulted (no layout object is created). -/
theorem createInputLayout_invalid_config (p : ModelMeshPart)
    (factory : Except Int Nat) :
    (isInvalidConfiguration (p.CreateInputLayout factory).2 = true
      ↔ vbDeclInvalid p = true)
    ∧ (vbDeclInvalid p = true →
        (p.CreateInputLayout factory).1 = none
        ∧ ∀ f₂ : Except Int Nat, p.CreateInputLayout f₂ = p.CreateInputLayout factory) := by
  constructor
  · cases hd : p.vbDecl with
    | none => simp [ModelMeshPart.CreateInputLayout, hd, isInvalidConfiguration, vbDeclInvalid]
    | some d =>
      by_cases he : d.isEmpty
      · simp [ModelMeshPart.CreateInputLayout, hd, he, isInvalidConfiguration, vbDeclInvalid]
      · by_cases hl : D3D11_IA_VERTEX_INPUT_STRUCTURE_ELEMENT_COUNT < d.length
        · simp [ModelMeshPart.CreateInputLayout, hd, he, hl, isInvalidConfiguration,
            vbDeclInvalid]
        · cases factory <;>
            simp [ModelMeshPart.CreateInputLayout, hd, he, hl, isInvalidConfiguration,
              vbDeclInvalid]
  · intro hbad
    cases hd : p.vbDecl with
    | none =>
      exact ⟨by simp [ModelMeshPart.CreateInputLayout, hd],
        fun f₂ => by simp [ModelMeshPart.CreateInputLayout, hd]⟩
    | some d =>
      have hbad2 : d.isEmpty = true
          ∨ D3D11_IA_VERTEX_INPUT_STRUCTURE_ELEMENT_COUNT < d.length := by
        simpa [vbDeclInvalid, hd] using hbad
      by_cases he : d.isEmpty
      · exact ⟨by simp [ModelMeshPart.CreateInputLayout, hd, he],
          fun f₂ => by simp [ModelMeshPart.CreateInputLayout, hd, he]⟩
      · have hl : D3D11_IA_VERTEX_INPUT_STRUCTURE_ELEMENT_COUNT < d.length := by
          rcases hbad2 with hch | hch
          · exact absurd hch he
          · exact hch
        exact ⟨by simp [ModelMeshPart.CreateInputLayout, hd, he, hl],
          fun f₂ => by simp [ModelMeshPart.CreateInputLayout, hd, he, hl]⟩

def c8Part : ModelMeshPart :=
  { indexCount := 3, startIndex := 0, vertexOffset := 0, vertexStride := 8,
    primitiveType := 4, indexFormat := 57, isAlpha := false, vbDecl := some [],
    effect := none, inputLayout := none }

theorem createInputLayout_invalid_config_witness :
    (c8Part.CreateInputLayout (Except.ok 4)).1 = none :=
  ((createInputLayout_invalid_config c8Part (Except.ok 4)).2 (by decide)).1

/-- Claim C9: for a part whose vertex-layout descriptor is absent, empty or
over the attribute-slot limit, `ModifyEffect` raises `InvalidConfiguration`
before performing any mutation — the part's effect binding, translucency flag
and input layout are unchanged after the failed call. -/
theorem modifyEffect_atomic (p : ModelMeshPart) (e : IEffect) (a : Bool)
    (factory : Except Int Nat) (hbad : vbDeclInvalid p = true) :
    (p.ModifyEffect e a factory).1 = p
    ∧ (p.ModifyEffect e a factory).1.effect = p.effect
    ∧ (p.ModifyEffect e a factory).1.isAlpha = p.isAlpha
    ∧ (p.ModifyEffect e a factory).1.inputLayout = p.inputLayout
    ∧ isInvalidConfiguration (p.ModifyEffect e a factory).2 = true := by
  have h1 : (p.ModifyEffect e a factory).1 = p
      ∧ isInvalidConfiguration (p.ModifyEffect e a factory).2 = true := by
    cases hd : p.vbDecl with
    | none => simp [ModelMeshPart.ModifyEffect, hd, isInvalidConfiguration]
    | some d =>
      have hbad2 : d.isEmpty = true
          ∨ D3D11_IA_VERTEX_INPUT_STRUCTURE_ELEMENT_COUNT < d.length := by
        simpa [vbDeclInvalid, hd] using hbad
      by_cases he : d.isEmpty
      · simp [ModelMeshPart.ModifyEffect, hd, he, isInvalidConfiguration]
      · have hl : D3D11_IA_VERTEX_INPUT_STRUCTURE_ELEMENT_COUNT < d.length := by
          rcases hbad2 with hch | hch
          · exact absurd hch he
          · exact hch
        simp [ModelMeshPart.ModifyEffect, hd, he, hl, isInvalidConfiguration]
  exact ⟨h1.1, by rw [h1.1], by rw [h1.1], by rw [h1.1], h1.2⟩

def c9Part : ModelMeshPart :=
  { indexCount := 3, startIndex := 0, vertexOffset := 0, vertexStride := 8,
    primitiveType := 4, indexFormat := 57, isAlpha := false, vbDecl := none,
    effect := none, inputLayout := some 3 }

theorem modifyEffect_atomic_witness :
    (c9Part.ModifyEffect { id := 3, supportsMatrices := true, supportsSkinning := false }
      true (Except.ok 0)).1 = c9Part :=
  (modifyEffect_atomic c9Part
    { id := 3, supportsMatrices := true, supportsSkinning := false }
    true (Except.ok 0) (by decide)).1

/-- Claim C10: for every tone-map configuration whose operator and transfer
function lie in the ranges enforced by `SetOperator` and
`SetTransferFunction`, the permutation returned by
`GetCurrentShaderPermutation` lies in `[0, ShaderPermutationCount)` and the
table lookups `pixelShaderIndices[permutation]` and
`pixelShaders[shaderIndex]` are in bounds, in both build configurations. -/
theorem toneMap_permutation_in_bounds (xbox mrt : Bool) (func op : Int)
    (hop : SetOperator op = none) (hfunc : SetTransferFunction func = none) :
    0 ≤ GetCurrentShaderPermutation xbox mrt func op
    ∧ GetCurrentShaderPermutation xbox mrt func op < (ShaderPermutationCount xbox : Int)
    ∧ (GetCurrentShaderPermutation xbox mrt func op).toNat
        < (pixelShaderIndices xbox).length
    ∧ (pixelShaderIndices xbox).getD
        (GetCurrentShaderPermutation xbox mrt func op).toNat 0
      < PixelShaderCount xbox := by
  have hOM : Operator_Max = 4 := rfl
  have hTM : TransferFunction_Max = 3 := rfl
  rw [SetOperator, hOM] at hop
  rw [SetTransferFunction, hTM] at hfunc
  have h1 : ¬(op < 0 ∨ (4 : Int) ≤ op) := by
    intro hcc
    rw [if_pos hcc] at hop
    exact Option.noConfusion hop
  have h2 : ¬(func < 0 ∨ (3 : Int) ≤ func) := by
    intro hcc
    rw [if_pos hcc] at hfunc
    exact Option.noConfusion hfunc
  push_neg at h1 h2
  obtain ⟨ho1, ho2⟩ := h1
  obtain ⟨hf1, hf2⟩ := h2
  cases xbox <;> cases mrt <;>
    (interval_cases func <;> interval_cases op <;> decide)

theorem toneMap_permutation_in_bounds_witness :
    (pixelShaderIndices false).getD
        (GetCurrentShaderPermutation false false 2 1).toNat 0
      < PixelShaderCount false :=
  (toneMap_permutation_in_bounds false false 2 1 (by decide) (by decide)).2.2.2
